import Mathlib

/-!
Verification development for the Graph-based Lattice repository
(`src/main.py`): a shallow embedding of the lattice configuration table
(`LATTICE_CONFIGS`, `LATTICE_PROPERTIES`), of the graph construction
performed by `create_graph_representation` (networkx `Graph` with
`add_nodes_from(range(len(nodes)))` followed by `add_edges_from(edges)`),
and of the metrics computed by `display_metrics` (average degree via
`G.degree()`, `nx.density`, `nx.is_connected`) and `create_adjacency_matrix`
(`nx.to_numpy_array`).

Machine reals from the Python source are embedded as rationals (all node
coordinates in the source are 0, 1 or 0.5, which float arithmetic
represents exactly, so nothing is lost). Python's `ZeroDivisionError` on
`sum(...)/G.number_of_nodes()` is embedded with `Except`.
-/

set_option autoImplicit false

/-- A 3D node coordinate, as in the `nodes` entries of `LATTICE_CONFIGS`. -/
abbrev Point := ℚ × ℚ × ℚ

/-- One entry of the `LATTICE_CONFIGS` dictionary of `src/main.py`:
a node coordinate list, an edge list of index pairs, and a color list. -/
structure Config where
  nodes : List Point
  edges : List (ℕ × ℕ)
  colors : List String
  deriving DecidableEq

/-- `LATTICE_CONFIGS["Simple Cubic"]` from `src/main.py`. -/
def simpleCubicConfig : Config where
  nodes := [(0,0,0), (1,0,0), (0,1,0), (1,1,0),
            (0,0,1), (1,0,1), (0,1,1), (1,1,1)]
  edges := [(0,1), (0,2), (0,4), (1,3), (1,5),
            (2,3), (2,6), (3,7), (4,5), (4,6),
            (5,7), (6,7)]
  colors := List.replicate 8 "#4299e1"

/-- `LATTICE_CONFIGS["BCC"]` from `src/main.py`; the edge list is
`[(8,i) for i in range(8)]` followed by the 12 cube edges. -/
def bccConfig : Config where
  nodes := [(0,0,0), (1,0,0), (0,1,0), (1,1,0),
            (0,0,1), (1,0,1), (0,1,1), (1,1,1),
            (1/2,1/2,1/2)]
  edges := (List.range 8).map (fun i => (8, i)) ++
           [(0,1), (0,2), (0,4), (1,3), (1,5),
            (2,3), (2,6), (3,7), (4,5), (4,6),
            (5,7), (6,7)]
  colors := List.replicate 8 "#4299e1" ++ ["#48bb78"]

/-- `LATTICE_CONFIGS["FCC"]` from `src/main.py`. -/
def fccConfig : Config where
  nodes := [(0,0,0), (1,0,0), (0,1,0), (1,1,0),
            (0,0,1), (1,0,1), (0,1,1), (1,1,1),
            (1/2,1/2,0), (1/2,0,1/2), (0,1/2,1/2)]
  edges := [(0,8), (1,8), (2,8), (3,8),
            (0,9), (1,9), (4,9), (5,9),
            (0,10), (2,10), (4,10), (6,10),
            (0,1), (0,2), (0,4), (1,3), (1,5),
            (2,3), (2,6), (3,7), (4,5), (4,6),
            (5,7), (6,7)]
  colors := List.replicate 8 "#4299e1" ++ ["#48bb78"] ++ ["#48bb78"] ++ ["#48bb78"]

/-- `LATTICE_CONFIGS["Octet"]` from `src/main.py`. -/
def octetConfig : Config where
  nodes := [(0,0,0), (1,0,0), (0,1,0), (1,1,0),
            (0,0,1), (1,0,1), (0,1,1), (1,1,1),
            (1/2,1/2,1/2)]
  edges := [(0,8), (1,8), (2,8), (3,8), (4,8), (5,8), (6,8), (7,8),
            (0,1), (0,2), (0,4), (1,3), (1,5),
            (2,3), (2,6), (3,7), (4,5), (4,6),
            (5,7), (6,7)]
  colors := List.replicate 8 "#4299e1" ++ ["#48bb78"]

/-- The `LATTICE_CONFIGS` dictionary of `src/main.py`, as an ordered
association list (Python dicts preserve insertion order). -/
def LATTICE_CONFIGS : List (String × Config) :=
  [("Simple Cubic", simpleCubicConfig),
   ("BCC", bccConfig),
   ("FCC", fccConfig),
   ("Octet", octetConfig)]

/-- One entry of the `LATTICE_PROPERTIES` dictionary of `src/main.py`:
five static descriptive text fields. -/
structure LatticeProps where
  structural : String
  mechanical : String
  applications : String
  connectivity : String
  relative_density : String
  deriving DecidableEq

/-- The `LATTICE_PROPERTIES` dictionary of `src/main.py`. -/
def LATTICE_PROPERTIES : List (String × LatticeProps) :=
  [("Simple Cubic",
    { structural := "Regular cubic arrangement with uniform node distribution"
      mechanical := "Uniform load distribution, predictable deformation"
      applications := "Basic structural components, scaffolds, lightweight structures"
      connectivity := "6 connections per internal node"
      relative_density := "Low to medium (0.1-0.3)" }),
   ("BCC",
    { structural := "Body-centered cubic with additional central node"
      mechanical := "Enhanced load distribution and strength"
      applications := "Load-bearing structures, energy absorption"
      connectivity := "8 connections for center node, 4 for corner nodes"
      relative_density := "Medium (0.2-0.4)" }),
   ("FCC",
    { structural := "Face-centered cubic with nodes at face centers"
      mechanical := "High strength-to-weight ratio, isotropic behavior"
      applications := "High-performance structural applications"
      connectivity := "12 connections per unit cell"
      relative_density := "Medium to high (0.3-0.5)" }),
   ("Octet",
    { structural := "Combination of octahedral and tetrahedral arrangements"
      mechanical := "High stiffness-to-weight ratio"
      applications := "Aerospace structures, high-performance materials"
      connectivity := "12 connections per node"
      relative_density := "Medium to high (0.3-0.5)" })]

/-- Modelled from the spec: the repository source outside `src/main.py`
(the spec describes a 962-line source of near-identical revisions, of
which `src/main.py` is one) also defines static descriptive metadata
entries for the "Kelvin" and "Diamond" families — structural, mechanical
and application text — while no generation rule (no `LATTICE_CONFIGS`
entry) exists for them anywhere. The exact wording of the text is not
given by the spec; only the presence of the fields matters here. -/
def LATTICE_PROPERTIES_full : List (String × LatticeProps) :=
  LATTICE_PROPERTIES ++
  [("Kelvin",
    { structural := "Tetrakaidecahedral (Kelvin cell) arrangement"
      mechanical := "Efficient space-filling mechanical response"
      applications := "Foam-like structures"
      connectivity := "Nominal Kelvin-cell connectivity"
      relative_density := "Low to medium" }),
   ("Diamond",
    { structural := "Diamond-cubic arrangement of nodes"
      mechanical := "High stiffness along tetrahedral directions"
      applications := "High-performance lattices"
      connectivity := "4 connections per internal node"
      relative_density := "Low" })]

/-- Normalisation of an index pair to an unordered edge: networkx's
`Graph` stores `add_edge(u, v)` and `add_edge(v, u)` as the same edge. -/
def normPair (e : ℕ × ℕ) : ℕ × ℕ :=
  if e.1 ≤ e.2 then e else (e.2, e.1)

/-- The state of a networkx `Graph`: node labels in insertion order, and
the edge set as normalised pairs in insertion order. -/
structure NXGraph where
  nodes : List ℕ
  edges : List (ℕ × ℕ)
  deriving DecidableEq

/-- networkx `add_node`: appends the label unless already present. -/
def insertNode (G : NXGraph) (v : ℕ) : NXGraph :=
  if v ∈ G.nodes then G else ⟨G.nodes ++ [v], G.edges⟩

/-- networkx `add_edge(u, v)`: adds both endpoints as nodes if absent,
then the (unordered) edge if absent. -/
def addEdge (G : NXGraph) (e : ℕ × ℕ) : NXGraph :=
  let G1 := insertNode (insertNode G e.1) e.2
  if normPair e ∈ G1.edges then G1 else ⟨G1.nodes, G1.edges ++ [normPair e]⟩

/-- `create_graph_representation` of `src/main.py`, graph-building part:
`G = nx.Graph(); G.add_nodes_from(range(len(nodes))); G.add_edges_from(edges)`. -/
def createGraph (nodes : List Point) (edges : List (ℕ × ℕ)) : NXGraph :=
  List.foldl addEdge (List.foldl insertNode ⟨[], []⟩ (List.range nodes.length)) edges

/-- The graph `create_graph_representation` builds for one configuration. -/
def toGraph (c : Config) : NXGraph :=
  createGraph c.nodes c.edges

/-- How many endpoints of edge `e` equal `i` (a self-loop at `i` counts
twice, matching networkx degree). -/
def incCount (e : ℕ × ℕ) (i : ℕ) : ℕ :=
  (if e.1 = i then 1 else 0) + (if e.2 = i then 1 else 0)

/-- networkx `G.degree()[i]`: number of edge endpoints at `i`. -/
def degree (G : NXGraph) (i : ℕ) : ℕ :=
  (G.edges.map (fun e => incCount e i)).sum

/-- `sum(dict(G.degree()).values())` from `display_metrics`. -/
def degreeSum (G : NXGraph) : ℕ :=
  (G.nodes.map (degree G)).sum

/-- A Python arithmetic failure: `display_metrics` divides by
`G.number_of_nodes()` with no guard, so zero nodes raise `ZeroDivisionError`. -/
inductive PyFailure where
  | zeroDivisionError
  deriving DecidableEq

/-- The "Average Degree" metric of `display_metrics`:
`sum(dict(G.degree()).values())/G.number_of_nodes()`. -/
def averageDegree (G : NXGraph) : Except PyFailure ℚ :=
  if G.nodes.length = 0 then Except.error PyFailure.zeroDivisionError
  else Except.ok ((degreeSum G : ℚ) / (G.nodes.length : ℚ))

/-- The "Graph Density" metric of `display_metrics`: `nx.density(G)`,
which returns `0` when `m == 0 or n <= 1` and `2*m/(n*(n-1))` otherwise. -/
def density (G : NXGraph) : ℚ :=
  let n := G.nodes.length
  let m := G.edges.length
  if m = 0 ∨ n ≤ 1 then 0
  else 2 * (m : ℚ) / ((n : ℚ) * ((n : ℚ) - 1))

/-- Neighbors of `v` in the graph, read off the edge list. -/
def neighbors (G : NXGraph) (v : ℕ) : List ℕ :=
  G.edges.foldr
    (fun e acc => if e.1 = v then e.2 :: acc else if e.2 = v then e.1 :: acc else acc) []

/-- Append the elements of `l` not yet present in `s`. -/
def addNew (s : List ℕ) (l : List ℕ) : List ℕ :=
  l.foldl (fun acc w => if w ∈ acc then acc else acc ++ [w]) s

/-- One round of breadth-first expansion: add every neighbor of every
currently reached node. -/
def stepR (G : NXGraph) (s : List ℕ) : List ℕ :=
  s.foldl (fun acc v => addNew acc (neighbors G v)) s

/-- The set of nodes reachable from `v` (iterating expansion
`|nodes|` times reaches a fixpoint on any graph over `G.nodes`). -/
def reachSet (G : NXGraph) (v : ℕ) : List ℕ :=
  (stepR G)^[G.nodes.length] [v]

/-- `nx.is_connected(G)` as called by `display_metrics`: traversal from
the first node reaches every node. -/
def isConnected (G : NXGraph) : Bool :=
  G.nodes.all (fun v => (reachSet G (G.nodes.headD 0)).contains v)

/-- Modelled from the spec: the connected-component count of the
GraphMetrics record, "number of maximal reachability classes" — the
source never computes it (`display_metrics` only shows the connectivity
flag), so it is taken from the spec's definition. Components are counted
as the distinct reachability classes, each in canonical sorted form. -/
def componentCount (G : NXGraph) : ℕ :=
  ((G.nodes.map
    (fun v => (List.range G.nodes.length).filter (fun w => (reachSet G v).contains w))).dedup).length

instance {ε α : Type} [DecidableEq ε] [DecidableEq α] : DecidableEq (Except ε α) := fun x y =>
  match x, y with
  | .error a, .error b =>
    if h : a = b then .isTrue (by rw [h]) else .isFalse (by simp [h])
  | .ok a, .ok b =>
    if h : a = b then .isTrue (by rw [h]) else .isFalse (by simp [h])
  | .error _, .ok _ => .isFalse (by simp)
  | .ok _, .error _ => .isFalse (by simp)

/-- `nx.to_numpy_array(G)` from `create_adjacency_matrix`: the square
matrix over node positions, entry 1 when the nodes at positions `i`, `j`
are adjacent. -/
def adjMatrix (G : NXGraph) (i j : ℕ) : ℕ :=
  if normPair (G.nodes.getD i 0, G.nodes.getD j 0) ∈ G.edges then 1 else 0

set_option maxRecDepth 40000

theorem normPair_comm (a b : ℕ) : normPair (a, b) = normPair (b, a) := by
  unfold normPair
  split <;> split <;> simp only [Prod.mk.injEq] <;> omega

theorem normPair_fst_lt_snd {a b : ℕ} (hab : a ≠ b) :
    (normPair (a, b)).1 < (normPair (a, b)).2 := by
  unfold normPair
  split <;> dsimp only <;> omega

theorem normPair_snd_lt {a b n : ℕ} (ha : a < n) (hb : b < n) :
    (normPair (a, b)).2 < n := by
  unfold normPair
  split <;> dsimp only <;> omega

theorem normPair_eq_iff {i j : ℕ} {e : ℕ × ℕ} (h : e.1 < e.2) :
    normPair (i, j) = e ↔ (i = e.1 ∧ j = e.2) ∨ (i = e.2 ∧ j = e.1) := by
  obtain ⟨a, b⟩ := e
  unfold normPair
  dsimp only at h ⊢
  split <;> simp only [Prod.mk.injEq] <;> omega

theorem foldl_insertNode_eq (l : List ℕ) (G : NXGraph) (hnd : l.Nodup)
    (hdisj : ∀ v ∈ l, v ∉ G.nodes) :
    List.foldl insertNode G l = ⟨G.nodes ++ l, G.edges⟩ := by
  induction l generalizing G with
  | nil => simp
  | cons a l ih =>
    rw [List.foldl_cons]
    have ha : insertNode G a = ⟨G.nodes ++ [a], G.edges⟩ := by
      unfold insertNode
      rw [if_neg (hdisj a (List.mem_cons_self a l))]
    rw [ha, ih _ (List.nodup_cons.mp hnd).2]
    · simp
    · intro v hv
      simp only [List.mem_append, List.mem_singleton]
      rintro (h | rfl)
      · exact hdisj v (List.mem_cons_of_mem a hv) h
      · exact (List.nodup_cons.mp hnd).1 hv

theorem foldl_addEdge_eq (l : List (ℕ × ℕ)) (G : NXGraph)
    (hmem : ∀ e ∈ l, e.1 ∈ G.nodes ∧ e.2 ∈ G.nodes)
    (hnd : (l.map normPair).Nodup)
    (hnew : ∀ e ∈ l, normPair e ∉ G.edges) :
    List.foldl addEdge G l = ⟨G.nodes, G.edges ++ l.map normPair⟩ := by
  induction l generalizing G with
  | nil => simp
  | cons e l ih =>
    rw [List.foldl_cons]
    have he1 : e.1 ∈ G.nodes := (hmem e (List.mem_cons_self e l)).1
    have he2 : e.2 ∈ G.nodes := (hmem e (List.mem_cons_self e l)).2
    have ha : addEdge G e = ⟨G.nodes, G.edges ++ [normPair e]⟩ := by
      unfold addEdge insertNode
      rw [if_pos he1, if_pos he2, if_neg (hnew e (List.mem_cons_self e l))]
    rw [ha, ih _ ?_ ?_ ?_]
    · simp
    · intro e' he'
      exact hmem e' (List.mem_cons_of_mem e he')
    · rw [List.map_cons, List.nodup_cons] at hnd
      exact hnd.2
    · intro e' he'
      simp only [List.mem_append, List.mem_singleton]
      rintro (h | h)
      · exact hnew e' (List.mem_cons_of_mem e he') h
      · rw [List.map_cons, List.nodup_cons] at hnd
        exact hnd.1 (h ▸ List.mem_map_of_mem normPair he')

theorem createGraph_eq (nodes : List Point) (edges : List (ℕ × ℕ))
    (hval : ∀ e ∈ edges, e.1 < nodes.length ∧ e.2 < nodes.length ∧ e.1 ≠ e.2)
    (hnd : (edges.map normPair).Nodup) :
    createGraph nodes edges = ⟨List.range nodes.length, edges.map normPair⟩ := by
  unfold createGraph
  rw [foldl_insertNode_eq _ _ (List.nodup_range _) (by intro v _ h; exact absurd h (List.not_mem_nil v))]
  rw [foldl_addEdge_eq]
  · rfl
  · intro e he
    exact ⟨List.mem_range.mpr (hval e he).1, List.mem_range.mpr (hval e he).2.1⟩
  · exact hnd
  · intro e _ h
    exact absurd h (List.not_mem_nil _)

theorem sum_map_zero {α : Type} (l : List α) : (l.map (fun _ => (0 : ℕ))).sum = 0 := by
  induction l <;> simp [*]

theorem sum_map_add {α : Type} (l : List α) (f g : α → ℕ) :
    (l.map (fun x => f x + g x)).sum = (l.map f).sum + (l.map g).sum := by
  induction l with
  | nil => simp
  | cons a l ih => simp only [List.map_cons, List.sum_cons, ih]; omega

theorem sum_map_comm {α β : Type} (l1 : List α) (l2 : List β) (f : α → β → ℕ) :
    (l1.map (fun a => (l2.map (f a)).sum)).sum =
      (l2.map (fun b => (l1.map (fun a => f a b)).sum)).sum := by
  induction l1 with
  | nil => simp [sum_map_zero]
  | cons a l1 ih =>
    simp only [List.map_cons, List.sum_cons, ih]
    rw [← sum_map_add]

theorem sum_map_eq_of_forall {α : Type} (l : List α) (f : α → ℕ) (c : ℕ)
    (h : ∀ x ∈ l, f x = c) : (l.map f).sum = c * l.length := by
  induction l with
  | nil => simp
  | cons a l ih =>
    simp only [List.map_cons, List.sum_cons, List.length_cons,
      h a (List.mem_cons_self a l), ih (fun x hx => h x (List.mem_cons_of_mem a hx))]
    ring

theorem sum_ite_of_none (n : ℕ) (p : ℕ → Prop) [DecidablePred p]
    (h : ∀ j, j < n → ¬ p j) :
    ((List.range n).map (fun j => if p j then 1 else 0)).sum = 0 := by
  induction n with
  | zero => simp
  | succ n ih =>
    rw [List.range_succ, List.map_append, List.sum_append]
    rw [ih (fun j hj => h j (Nat.lt_succ_of_lt hj))]
    simp [h n (Nat.lt_succ_self n)]

theorem sum_ite_of_unique (n c : ℕ) (p : ℕ → Prop) [DecidablePred p]
    (hc : c < n) (hpc : p c) (hu : ∀ j, p j → j = c) :
    ((List.range n).map (fun j => if p j then 1 else 0)).sum = 1 := by
  induction n with
  | zero => omega
  | succ n ih =>
    rw [List.range_succ, List.map_append, List.sum_append]
    by_cases hcn : c = n
    · rw [sum_ite_of_none n p (fun j hj hpj => by have := hu j hpj; omega)]
      simp [hcn ▸ hpc]
    · have hcn' : c < n := by omega
      rw [ih hcn']
      have : ¬ p n := fun hpn => hcn (hu n hpn).symm
      simp [this]

theorem sum_incCount_range (n : ℕ) (e : ℕ × ℕ) (h1 : e.1 < n) (h2 : e.2 < n) :
    ((List.range n).map (fun i => incCount e i)).sum = 2 := by
  unfold incCount
  rw [sum_map_add]
  rw [sum_ite_of_unique n e.1 (fun i => e.1 = i) h1 rfl (fun j hj => hj.symm)]
  rw [sum_ite_of_unique n e.2 (fun i => e.2 = i) h2 rfl (fun j hj => hj.symm)]

theorem normPair_map_bounds (edges : List (ℕ × ℕ)) (n : ℕ)
    (hval : ∀ e ∈ edges, e.1 < n ∧ e.2 < n ∧ e.1 ≠ e.2) :
    ∀ e ∈ edges.map normPair, e.1 < e.2 ∧ e.2 < n := by
  intro e he
  obtain ⟨e0, he0, rfl⟩ := List.mem_map.mp he
  obtain ⟨ha, hb, hab⟩ := hval e0 he0
  exact ⟨normPair_fst_lt_snd hab, normPair_snd_lt ha hb⟩

theorem sum_normPair_single (n : ℕ) (e : ℕ × ℕ) (h1 : e.1 < e.2) (h2 : e.2 < n)
    (i : ℕ) :
    ((List.range n).map (fun j => if normPair (i, j) = e then 1 else 0)).sum =
      incCount e i := by
  by_cases hi1 : i = e.1
  · rw [sum_ite_of_unique n e.2 (fun j => normPair (i, j) = e) h2]
    · unfold incCount
      split <;> split <;> omega
    · rw [normPair_eq_iff h1]
      omega
    · intro j hj
      rw [normPair_eq_iff h1] at hj
      omega
  · by_cases hi2 : i = e.2
    · rw [sum_ite_of_unique n e.1 (fun j => normPair (i, j) = e) (by omega)]
      · unfold incCount
        split <;> split <;> omega
      · rw [normPair_eq_iff h1]
        omega
      · intro j hj
        rw [normPair_eq_iff h1] at hj
        omega
    · rw [sum_ite_of_none n (fun j => normPair (i, j) = e)]
      · unfold incCount
        split <;> split <;> omega
      · intro j _ hj
        rw [normPair_eq_iff h1] at hj
        omega

theorem row_core (E : List (ℕ × ℕ)) (n : ℕ)
    (hE : ∀ e ∈ E, e.1 < e.2 ∧ e.2 < n) (hnd : E.Nodup) (i : ℕ) :
    ((List.range n).map (fun j => if normPair (i, j) ∈ E then 1 else 0)).sum =
      (E.map (fun e => incCount e i)).sum := by
  induction E with
  | nil => simp
  | cons e E ih =>
    obtain ⟨hmem, hnd'⟩ := List.nodup_cons.mp hnd
    have hpt : ∀ j ∈ List.range n,
        (if normPair (i, j) ∈ e :: E then (1 : ℕ) else 0) =
          (if normPair (i, j) = e then 1 else 0) +
            (if normPair (i, j) ∈ E then 1 else 0) := by
      intro j _
      by_cases hq1 : normPair (i, j) = e
      · have hq2 : normPair (i, j) ∉ E := fun h => hmem (hq1 ▸ h)
        simp [hq1, hq2, hmem]
      · by_cases hq2 : normPair (i, j) ∈ E <;> simp [List.mem_cons, hq1, hq2]
    rw [List.map_congr_left hpt, sum_map_add]
    rw [sum_normPair_single n e (hE e (List.mem_cons_self e E)).1
      (hE e (List.mem_cons_self e E)).2 i]
    rw [ih (fun e' he' => hE e' (List.mem_cons_of_mem e he')) hnd']
    simp

theorem range_getD {n i : ℕ} (h : i < n) : (List.range n).getD i 0 = i := by
  rw [List.getD_eq_getElem _ _ (by simpa using h)]
  simp

/-- C1: for every lattice family in `LATTICE_CONFIGS`, every edge pair
(a, b) references existing nodes (a < |nodes| and b < |nodes|) and is not
a self-loop (a ≠ b). -/
theorem edge_indices_valid :
    ∀ p ∈ LATTICE_CONFIGS, ∀ e ∈ p.2.edges,
      e.1 < p.2.nodes.length ∧ e.2 < p.2.nodes.length ∧ e.1 ≠ e.2 := by
  decide

theorem edge_indices_valid_witness :
    (0 : ℕ) < simpleCubicConfig.nodes.length ∧
      (1 : ℕ) < simpleCubicConfig.nodes.length ∧ (0 : ℕ) ≠ 1 :=
  edge_indices_valid ("Simple Cubic", simpleCubicConfig) (by decide) (0, 1) (by decide)

/-- C2: for every (nodes, edges) input satisfying the Data Model invariants
(in-range endpoints, no self-loops, no duplicate unordered pairs), the sum
over the graph's nodes of the degrees computed by the metrics engine is
exactly 2·|edges| (handshake lemma), and consequently the average-degree
metric is 2·|edges|/|nodes| whenever |nodes| ≠ 0. -/
theorem handshake_lemma (nodes : List Point) (edges : List (ℕ × ℕ))
    (hval : ∀ e ∈ edges, e.1 < nodes.length ∧ e.2 < nodes.length ∧ e.1 ≠ e.2)
    (hnd : (edges.map normPair).Nodup) :
    degreeSum (createGraph nodes edges) = 2 * edges.length ∧
    averageDegree (createGraph nodes edges) =
      (if nodes.length = 0 then Except.error PyFailure.zeroDivisionError
       else Except.ok (2 * (edges.length : ℚ) / (nodes.length : ℚ))) := by
  have hG := createGraph_eq nodes edges hval hnd
  have hsum : degreeSum (createGraph nodes edges) = 2 * edges.length := by
    rw [hG]
    show ((List.range nodes.length).map
      (degree ⟨List.range nodes.length, edges.map normPair⟩)).sum = 2 * edges.length
    unfold degree
    dsimp only
    rw [sum_map_comm]
    rw [sum_map_eq_of_forall _ _ 2 ?_]
    · rw [List.length_map]
    · intro e he
      obtain ⟨h12, h2n⟩ := normPair_map_bounds edges nodes.length hval e he
      exact sum_incCount_range nodes.length e (by omega) h2n
  have hlen : (createGraph nodes edges).nodes.length = nodes.length := by
    rw [hG]
    exact List.length_range _
  refine ⟨hsum, ?_⟩
  unfold averageDegree
  rw [hlen]
  by_cases hn : nodes.length = 0
  · rw [if_pos hn, if_pos hn]
  · rw [if_neg hn, if_neg hn, hsum]
    exact congrArg Except.ok (by push_cast; ring)

theorem handshake_lemma_witness :
    degreeSum (createGraph simpleCubicConfig.nodes simpleCubicConfig.edges) =
      2 * simpleCubicConfig.edges.length ∧
    averageDegree (createGraph simpleCubicConfig.nodes simpleCubicConfig.edges) =
      (if simpleCubicConfig.nodes.length = 0
       then Except.error PyFailure.zeroDivisionError
       else Except.ok (2 * (simpleCubicConfig.edges.length : ℚ) /
         (simpleCubicConfig.nodes.length : ℚ))) :=
  handshake_lemma simpleCubicConfig.nodes simpleCubicConfig.edges (by decide) (by decide)

/-- C3: for every (nodes, edges) input satisfying the Data Model invariants,
the adjacency matrix is 0/1-valued, symmetric, has zero diagonal, and its
row sum at each node index equals that node's degree. -/
theorem adjacency_matrix_correct (nodes : List Point) (edges : List (ℕ × ℕ))
    (hval : ∀ e ∈ edges, e.1 < nodes.length ∧ e.2 < nodes.length ∧ e.1 ≠ e.2)
    (hnd : (edges.map normPair).Nodup) :
    (∀ i j, adjMatrix (createGraph nodes edges) i j = 0 ∨
      adjMatrix (createGraph nodes edges) i j = 1) ∧
    (∀ i j, adjMatrix (createGraph nodes edges) i j =
      adjMatrix (createGraph nodes edges) j i) ∧
    (∀ i, adjMatrix (createGraph nodes edges) i i = 0) ∧
    (∀ i, i < nodes.length →
      ((List.range nodes.length).map
        (fun j => adjMatrix (createGraph nodes edges) i j)).sum =
        degree (createGraph nodes edges) i) := by
  have hG := createGraph_eq nodes edges hval hnd
  rw [hG]
  refine ⟨?_, ?_, ?_, ?_⟩
  · intro i j
    unfold adjMatrix
    split
    · right; rfl
    · left; rfl
  · intro i j
    unfold adjMatrix
    rw [normPair_comm]
  · intro i
    unfold adjMatrix
    dsimp only
    rw [if_neg]
    intro hmem
    have hb := (normPair_map_bounds edges nodes.length hval _
      (by simpa [normPair, le_refl] using hmem)).1
    simp at hb
  · intro i hi
    have hpt : ∀ j ∈ List.range nodes.length,
        adjMatrix ⟨List.range nodes.length, edges.map normPair⟩ i j =
          if normPair (i, j) ∈ edges.map normPair then 1 else 0 := by
      intro j hj
      unfold adjMatrix
      dsimp only
      rw [range_getD hi, range_getD (List.mem_range.mp hj)]
    rw [List.map_congr_left hpt]
    rw [row_core _ _ (normPair_map_bounds edges nodes.length hval) hnd i]
    rfl

theorem adjacency_matrix_correct_witness :
    (adjMatrix (createGraph bccConfig.nodes bccConfig.edges) 0 8 = 0 ∨
      adjMatrix (createGraph bccConfig.nodes bccConfig.edges) 0 8 = 1) ∧
    adjMatrix (createGraph bccConfig.nodes bccConfig.edges) 0 8 =
      adjMatrix (createGraph bccConfig.nodes bccConfig.edges) 8 0 ∧
    adjMatrix (createGraph bccConfig.nodes bccConfig.edges) 3 3 = 0 ∧
    ((List.range bccConfig.nodes.length).map
      (fun j => adjMatrix (createGraph bccConfig.nodes bccConfig.edges) 8 j)).sum =
      degree (createGraph bccConfig.nodes bccConfig.edges) 8 :=
  ⟨(adjacency_matrix_correct bccConfig.nodes bccConfig.edges (by decide) (by decide)).1 0 8,
   (adjacency_matrix_correct bccConfig.nodes bccConfig.edges (by decide) (by decide)).2.1 0 8,
   (adjacency_matrix_correct bccConfig.nodes bccConfig.edges (by decide) (by decide)).2.2.1 3,
   (adjacency_matrix_correct bccConfig.nodes bccConfig.edges (by decide) (by decide)).2.2.2 8
     (by decide)⟩

/-- C4: Simple Cubic yields 8 nodes and 12 edges, every node has degree 3,
the average-degree metric is 3.0, the density is 12/28, the graph is
connected and has exactly 1 component. -/
theorem simple_cubic_metrics :
    (toGraph simpleCubicConfig).nodes.length = 8 ∧
    (toGraph simpleCubicConfig).edges.length = 12 ∧
    (toGraph simpleCubicConfig).nodes.map (degree (toGraph simpleCubicConfig)) =
      List.replicate 8 3 ∧
    averageDegree (toGraph simpleCubicConfig) = Except.ok 3 ∧
    density (toGraph simpleCubicConfig) = 12 / 28 ∧
    isConnected (toGraph simpleCubicConfig) = true ∧
    componentCount (toGraph simpleCubicConfig) = 1 := by
  refine ⟨by decide, by decide, by decide, ?_, ?_, by decide, by decide⟩
  · rw [averageDegree, show (toGraph simpleCubicConfig).nodes.length = 8 from by decide,
      show degreeSum (toGraph simpleCubicConfig) = 24 from by decide]
    norm_num
  · rw [density, show (toGraph simpleCubicConfig).nodes.length = 8 from by decide,
      show (toGraph simpleCubicConfig).edges.length = 12 from by decide]
    norm_num

/-- C5: BCC yields 9 nodes and 20 edges (the 12 cube edges plus the 8
center-to-corner edges), the body-center node 8 has degree 8, each of the
8 corner nodes has degree 4, and the average-degree metric is 40/9. -/
theorem bcc_metrics :
    (toGraph bccConfig).nodes.length = 9 ∧
    (toGraph bccConfig).edges.length = 20 ∧
    degree (toGraph bccConfig) 8 = 8 ∧
    (toGraph bccConfig).nodes.map (degree (toGraph bccConfig)) =
      List.replicate 8 4 ++ [8] ∧
    averageDegree (toGraph bccConfig) = Except.ok (40 / 9) := by
  refine ⟨by decide, by decide, by decide, by decide, ?_⟩
  rw [averageDegree, show (toGraph bccConfig).nodes.length = 9 from by decide,
    show degreeSum (toGraph bccConfig) = 40 from by decide]
  norm_num

/-- C6: the Octet family's topology is identical to BCC's: the node
coordinate sequences are equal, the edge lists are equal as sets of
unordered index pairs, the built graphs coincide, and therefore every
metric (degrees, average degree, density, connectivity, component count,
adjacency matrix) coincides. -/
theorem octet_equals_bcc :
    octetConfig.nodes = bccConfig.nodes ∧
    (octetConfig.edges.map normPair).toFinset =
      (bccConfig.edges.map normPair).toFinset ∧
    toGraph octetConfig = toGraph bccConfig ∧
    (∀ i, degree (toGraph octetConfig) i = degree (toGraph bccConfig) i) ∧
    averageDegree (toGraph octetConfig) = averageDegree (toGraph bccConfig) ∧
    density (toGraph octetConfig) = density (toGraph bccConfig) ∧
    isConnected (toGraph octetConfig) = isConnected (toGraph bccConfig) ∧
    componentCount (toGraph octetConfig) = componentCount (toGraph bccConfig) ∧
    (∀ i j, adjMatrix (toGraph octetConfig) i j = adjMatrix (toGraph bccConfig) i j) := by
  have hg : toGraph octetConfig = toGraph bccConfig := by decide
  exact ⟨rfl, by decide, hg, fun i => by rw [hg], by rw [hg], by rw [hg], by rw [hg],
    by rw [hg], fun i j => by rw [hg]⟩

/-- C7 counterexample: on nodes=[p0,p1] with the out-of-range edge (0,2),
the metrics computation does not fail at all — it returns an average
degree of 2/3 (the claim states it fails with MalformedTopologyError). -/
theorem malformed_input_no_failure :
    averageDegree (createGraph [((0:ℚ),0,0), (1,0,0)] [(0,2)]) = Except.ok (2 / 3) := by
  rw [averageDegree,
    show (createGraph [((0:ℚ),0,0), (1,0,0)] [(0,2)]).nodes.length = 3 from by decide,
    show degreeSum (createGraph [((0:ℚ),0,0), (1,0,0)] [(0,2)]) = 2 from by decide]
  norm_num

/-- C7 amended: the code performs no topology validation (no
MalformedTopologyError exists): an edge referencing an out-of-range index
silently adds that index as a new node — analyze([p0,p1],[(0,2)]) yields a
3-node, 1-edge graph with density 1/3 — and a self-loop edge is likewise
accepted into the graph. -/
theorem malformed_input_extends_graph :
    createGraph [((0:ℚ),0,0), (1,0,0)] [(0,2)] = ⟨[0, 1, 2], [(0, 2)]⟩ ∧
    (createGraph [((0:ℚ),0,0), (1,0,0)] [(0,2)]).nodes.length = 3 ∧
    (createGraph [((0:ℚ),0,0), (1,0,0)] [(0,2)]).edges.length = 1 ∧
    density (createGraph [((0:ℚ),0,0), (1,0,0)] [(0,2)]) = 1 / 3 ∧
    createGraph [((0:ℚ),0,0), (1,0,0)] [(0,0)] = ⟨[0, 1], [(0, 0)]⟩ := by
  refine ⟨by decide, by decide, by decide, ?_, by decide⟩
  rw [density,
    show (createGraph [((0:ℚ),0,0), (1,0,0)] [(0,2)]).nodes.length = 3 from by decide,
    show (createGraph [((0:ℚ),0,0), (1,0,0)] [(0,2)]).edges.length = 1 from by decide]
  norm_num

/-- C8 counterexample: with zero nodes the average-degree computation is
the unguarded Python division `sum(...)/G.number_of_nodes()` and fails by
dividing by zero (ZeroDivisionError) — there is no EmptyTopologyError in
the code, so the claim's stated failure mode is wrong. -/
theorem empty_topology_zero_division :
    averageDegree (createGraph [] []) = Except.error PyFailure.zeroDivisionError := by
  decide

/-- C8 amended: with zero nodes, requesting the average degree fails by an
unguarded division by zero (Python ZeroDivisionError; no dedicated
EmptyTopologyError exists), while the density for fewer than 2 nodes is 0
by networkx convention and does not fail. -/
theorem empty_topology_behavior :
    averageDegree (createGraph [] []) = Except.error PyFailure.zeroDivisionError ∧
    density (createGraph [] []) = 0 ∧
    density (createGraph [((0:ℚ),0,0)] []) = 0 := by
  exact ⟨by decide, by decide, by decide⟩

/-- C9: the family domain is the six tags Simple Cubic, BCC, FCC, Octet,
Kelvin, Diamond; Kelvin and Diamond carry static descriptive metadata
(modelled from the spec, as the revisions holding them are not part of
`src/main.py`) while no generation rule — no `LATTICE_CONFIGS` entry —
exists for them. -/
theorem family_domain_and_metadata :
    LATTICE_PROPERTIES_full.map Prod.fst =
      ["Simple Cubic", "BCC", "FCC", "Octet", "Kelvin", "Diamond"] ∧
    (LATTICE_CONFIGS.map Prod.fst).contains "Kelvin" = false ∧
    (LATTICE_CONFIGS.map Prod.fst).contains "Diamond" = false ∧
    (LATTICE_PROPERTIES_full.lookup "Kelvin").isSome = true ∧
    (LATTICE_PROPERTIES_full.lookup "Diamond").isSome = true := by
  decide

/-- C10: for every family in the configuration table the edge list has no
duplicate unordered pairs and every endpoint is in range, so the graph
built by create_graph_representation has exactly len(nodes) nodes and
exactly len(edges) edges. -/
theorem graph_preserves_counts :
    ∀ p ∈ LATTICE_CONFIGS,
      (p.2.edges.map normPair).Nodup ∧
      (∀ e ∈ p.2.edges, e.1 < p.2.nodes.length ∧ e.2 < p.2.nodes.length) ∧
      (toGraph p.2).nodes.length = p.2.nodes.length ∧
      (toGraph p.2).edges.length = p.2.edges.length := by
  decide

theorem bcc_mem_configs : ("BCC", bccConfig) ∈ LATTICE_CONFIGS :=
  List.mem_cons_of_mem _ (List.mem_cons_self _ _)

theorem graph_preserves_counts_witness :
    (bccConfig.edges.map normPair).Nodup ∧
    ((8 : ℕ) < bccConfig.nodes.length ∧ (0 : ℕ) < bccConfig.nodes.length) ∧
    (toGraph bccConfig).nodes.length = bccConfig.nodes.length ∧
    (toGraph bccConfig).edges.length = bccConfig.edges.length :=
  ⟨(graph_preserves_counts ("BCC", bccConfig) bcc_mem_configs).1,
   (graph_preserves_counts ("BCC", bccConfig) bcc_mem_configs).2.1 (8, 0) (by decide),
   (graph_preserves_counts ("BCC", bccConfig) bcc_mem_configs).2.2.1,
   (graph_preserves_counts ("BCC", bccConfig) bcc_mem_configs).2.2.2⟩
